import Mathlib

/-!
Verification of the csv_processor concurrent pipeline core.

Shallow embedding notes:
* Go `float64` quantities (error rate, threshold, elapsed seconds) are
  embedded as `ℚ`; the control-flow comparisons of the source are exact
  rational comparisons here.
* Go `error` values are embedded as the inductive `GoError`, covering the
  package-level sentinel errors and the two structured error types of the
  `errors` package.
* Channel sends/cancellation are embedded as explicit state: the error
  collector's `context` cancellation scope is the boolean `canceled`
  (level-triggered, so signaling twice is the same as signaling once), a
  bounded channel is a capacity plus a buffered list.
* Timestamps (`time.Now()`) carried by records/results/entries play no role
  in any verified property and are omitted from the embedded structures.
-/

namespace CsvProc

/-! ## Data model (internal/models) -/

/-- `models.ProcessingStatus`: the status constants SUCCESS/FAILED/SKIPPED. -/
inductive ProcessingStatus
  | success
  | failed
  | skipped
deriving DecidableEq, Repr

/-- `models.Record`: one parsed CSV record (ingestion timestamp omitted). -/
structure Record where
  lineNumber : Nat
  fileName : String
  data : List String
  headers : List String
deriving DecidableEq, Repr

/-- Go `error` values used by the repository: the sentinel errors of the
`errors` package, its two structured error types, and an escape constructor
for any other error value a caller may supply. -/
inductive GoError
  | invalidCSV
  | invalidRecord
  | processingFailed
  | fileNotFound
  | emptyFile
  | headerMismatch
  | contextCanceled
  | workerPoolClosed
  | maxErrorsExceeded
  | deadlineExceeded
  | validationErr (field value message : String)
  | processingErr (op fileName : String) (lineNumber : Nat) (cause : GoError)
  | other (msg : String)
deriving DecidableEq, Repr

/-- `models.Result`: outcome of processing one record (timestamp omitted,
duration in integer nanoseconds like Go's `time.Duration`). -/
structure Result where
  record : Option Record
  status : ProcessingStatus
  error : Option GoError
  duration : Nat
deriving DecidableEq, Repr

/-- `models.NewFailedResult`. -/
def NewFailedResult (record : Option Record) (err : GoError) (duration : Nat) : Result :=
  { record := record, status := .failed, error := some err, duration := duration }

/-- `Record.GetField`: value at a column index, empty string out of range. -/
def Record.GetField (r : Record) (index : Int) : String :=
  if index < 0 ∨ (r.data.length : Int) ≤ index then ""
  else r.data.getD index.toNat ""

/-- Loop of `Record.GetFieldByName` over the remaining headers, `i` the
index of the first of them. -/
def getFieldByNameAux (r : Record) (columnName : String) :
    Nat → List String → String
  | _, [] => ""
  | i, header :: rest =>
    if header = columnName then r.GetField i
    else getFieldByNameAux r columnName (i + 1) rest

/-- `Record.GetFieldByName`: Go loops over `r.Headers` with index `i` and
returns `r.GetField i` at the first header equal to `columnName`, empty
string when no header matches. -/
def Record.GetFieldByName (r : Record) (columnName : String) : String :=
  getFieldByNameAux r columnName 0 r.headers

/-- `models.Summary`: the four atomic counters (time fields omitted; they do
not take part in any counting property). Counters are `uint64` in Go; the
additions below never wrap for any list of results a run can feed them, so
they are embedded as `Nat`. -/
structure Summary where
  totalRecords : Nat
  successCount : Nat
  failedCount : Nat
  skippedCount : Nat
deriving DecidableEq, Repr

/-- `models.NewSummary` (counters start at zero). -/
def NewSummary : Summary :=
  { totalRecords := 0, successCount := 0, failedCount := 0, skippedCount := 0 }

/-- `Summary.AddResult`: increment total, then switch on the status. -/
def Summary.AddResult (s : Summary) (result : Result) : Summary :=
  let s := { s with totalRecords := s.totalRecords + 1 }
  match result.status with
  | .success => { s with successCount := s.successCount + 1 }
  | .failed => { s with failedCount := s.failedCount + 1 }
  | .skipped => { s with skippedCount := s.skippedCount + 1 }

/-! ## Progress tracker (internal/tracker/progress.go) -/

/-- `tracker.ProgressTracker`: the five atomic counters. The reporting task,
writer and start time are not part of the counter semantics; elapsed time is
passed explicitly to the derived metrics. -/
structure ProgressTracker where
  totalRecords : Nat
  processedCount : Nat
  successCount : Nat
  failedCount : Nat
  skippedCount : Nat
deriving DecidableEq, Repr

/-- `tracker.NewProgressTracker`: counters start at zero except the expected
total taken from the config. -/
def NewProgressTracker (totalRecords : Nat) : ProgressTracker :=
  { totalRecords := totalRecords, processedCount := 0, successCount := 0,
    failedCount := 0, skippedCount := 0 }

/-- `ProgressTracker.RecordProcessed`: increment processed; a nil result adds
nothing else, otherwise switch on the status. -/
def ProgressTracker.RecordProcessed (pt : ProgressTracker) (result : Option Result) :
    ProgressTracker :=
  let pt := { pt with processedCount := pt.processedCount + 1 }
  match result with
  | none => pt
  | some r =>
    match r.status with
    | .success => { pt with successCount := pt.successCount + 1 }
    | .failed => { pt with failedCount := pt.failedCount + 1 }
    | .skipped => { pt with skippedCount := pt.skippedCount + 1 }

/-- `ProgressTracker.Throughput`: records per elapsed second, `0` when the
elapsed time is zero (the guard in the source). Elapsed seconds is the
`float64` of `time.Duration.Seconds()`, embedded as `ℚ`. -/
def ProgressTracker.Throughput (pt : ProgressTracker) (elapsedSeconds : ℚ) : ℚ :=
  if elapsedSeconds = 0 then 0
  else (pt.processedCount : ℚ) / elapsedSeconds

/-- `ProgressTracker.PercentComplete`: `processed / total * 100`, `0` when the
expected total is unknown (zero). -/
def ProgressTracker.PercentComplete (pt : ProgressTracker) : ℚ :=
  if pt.totalRecords = 0 then 0
  else (pt.processedCount : ℚ) / (pt.totalRecords : ℚ) * 100

/-- `ProgressTracker.ETA`: average elapsed nanoseconds per processed record
times the remaining count. Go divides two `time.Duration` values, which is
integer division on nanoseconds, hence `Nat` division here. -/
def ProgressTracker.ETA (pt : ProgressTracker) (elapsedNs : Nat) : Nat :=
  if pt.totalRecords = 0 ∨ pt.processedCount = 0 then 0
  else if pt.totalRecords ≤ pt.processedCount then 0
  else (elapsedNs / pt.processedCount) * (pt.totalRecords - pt.processedCount)

/-! ## Error collector (internal/errors) -/

/-- `errors.ErrorCategory`. -/
inductive ErrorCategory
  | validation
  | processing
  | io
  | timeout
  | unknown
deriving DecidableEq, Repr

/-- `errors.ErrorSeverity`. -/
inductive ErrorSeverity
  | low
  | medium
  | high
  | critical
deriving DecidableEq, Repr

/-- `errors.IsValidationError`: a `*ValidationError` value, `ErrInvalidRecord`
or `ErrHeaderMismatch` (Go compares the dynamic type, then the sentinels). -/
def IsValidationError : GoError → Bool
  | .validationErr _ _ _ => true
  | .invalidRecord => true
  | .headerMismatch => true
  | _ => false

/-- `errors.IsIOError`: `ErrFileNotFound` or `ErrEmptyFile`. -/
def IsIOError : GoError → Bool
  | .fileNotFound => true
  | .emptyFile => true
  | _ => false

/-- `errors.IsTimeoutError`: `context.DeadlineExceeded`. -/
def IsTimeoutError : GoError → Bool
  | .deadlineExceeded => true
  | _ => false

/-- `errors.IsProcessingError`: a `*ProcessingError` value or
`ErrProcessingFailed`. -/
def IsProcessingError : GoError → Bool
  | .processingErr _ _ _ _ => true
  | .processingFailed => true
  | _ => false

/-- `errors.categorizeError`: first matching class wins. -/
def categorizeError (err : GoError) : ErrorCategory :=
  if IsValidationError err then .validation
  else if IsIOError err then .io
  else if IsTimeoutError err then .timeout
  else if IsProcessingError err then .processing
  else .unknown

/-- `errors.determineSeverity`. -/
def determineSeverity (err : GoError) : ErrorSeverity :=
  if err = .maxErrorsExceeded then .critical
  else if err = .contextCanceled then .high
  else if IsValidationError err then .low
  else if IsIOError err then .medium
  else .medium

/-- `errors.isRetryable`: IO and timeout errors are retryable, validation
errors are not, everything else is not. -/
def isRetryable (err : GoError) : Bool :=
  if IsValidationError err then false
  else if IsIOError err then true
  else if IsTimeoutError err then true
  else false

/-- `errors.ErrorEntry` (timestamp omitted). -/
structure ErrorEntry where
  error : GoError
  record : Option Record
  category : ErrorCategory
  severity : ErrorSeverity
  retryable : Bool
deriving DecidableEq, Repr

/-- `errors.Collector` state. `maxErrors` is a Go `int` (`Int` here);
`errorThreshold` a `float64` (`ℚ` here); the cancellation scope created by
`context.WithCancel` is the level-triggered boolean `canceled`. -/
structure Collector where
  errors : List ErrorEntry
  maxErrors : Int
  errorThreshold : ℚ
  totalProcessed : Nat
  abortOnThreshold : Bool
  canceled : Bool
deriving DecidableEq, Repr

/-- `errors.CollectorConfig`. -/
structure CollectorConfig where
  maxErrors : Int
  errorThreshold : ℚ
  abortOnThreshold : Bool
deriving DecidableEq, Repr

/-- `errors.NewCollector`: empty error list, fresh (unsignaled) scope. -/
def NewCollector (config : CollectorConfig) : Collector :=
  { errors := [], maxErrors := config.maxErrors,
    errorThreshold := config.errorThreshold, totalProcessed := 0,
    abortOnThreshold := config.abortOnThreshold, canceled := false }

/-- Distinct error values `Add`/`AddWithCategory` can return to the caller:
the "maximum error limit reached" error and the "error threshold exceeded"
error. -/
inductive AddErr
  | limitReached (max : Int)
  | thresholdExceeded
deriving DecidableEq, Repr

/-- `Collector.calculateErrorRate`: `len(errors)/totalProcessed`, `0` when
nothing was processed yet. -/
def Collector.calculateErrorRate (c : Collector) : ℚ :=
  if c.totalProcessed = 0 then 0
  else (c.errors.length : ℚ) / (c.totalProcessed : ℚ)

/-- `Collector.Add`: nil error is a no-op; reject at the max-errors cap;
otherwise append a classified entry and, when abort-on-threshold is enabled
with a positive threshold, evaluate the error rate and on strict excess
signal the scope (`cancel()`, idempotent on the level-triggered scope) and
return the threshold error. -/
def Collector.Add (c : Collector) (err : Option GoError) (record : Option Record) :
    Collector × Option AddErr :=
  match err with
  | none => (c, none)
  | some e =>
    if 0 < c.maxErrors ∧ c.maxErrors ≤ (c.errors.length : Int) then
      (c, some (.limitReached c.maxErrors))
    else
      let entry : ErrorEntry :=
        { error := e, record := record, category := categorizeError e,
          severity := determineSeverity e, retryable := isRetryable e }
      let c1 := { c with errors := c.errors ++ [entry] }
      if c1.abortOnThreshold ∧ 0 < c1.errorThreshold then
        if c1.errorThreshold < c1.calculateErrorRate then
          ({ c1 with canceled := true }, some .thresholdExceeded)
        else
          (c1, none)
      else
        (c1, none)

/-- `Collector.AddWithCategory`: nil error is a no-op; reject at the
max-errors cap; otherwise append an entry with the explicit category and
return nil — the source performs no threshold evaluation here. -/
def Collector.AddWithCategory (c : Collector) (err : Option GoError)
    (record : Option Record) (category : ErrorCategory) :
    Collector × Option AddErr :=
  match err with
  | none => (c, none)
  | some e =>
    if 0 < c.maxErrors ∧ c.maxErrors ≤ (c.errors.length : Int) then
      (c, some (.limitReached c.maxErrors))
    else
      let entry : ErrorEntry :=
        { error := e, record := record, category := category,
          severity := determineSeverity e, retryable := isRetryable e }
      ({ c with errors := c.errors ++ [entry] }, none)

/-- `Collector.IncrementProcessed`. -/
def Collector.IncrementProcessed (c : Collector) : Collector :=
  { c with totalProcessed := c.totalProcessed + 1 }

/-- One call a client can make against the collector's error list: `Add` or
`AddWithCategory` with an actual (non-nil) error. -/
inductive AddOp
  | plain (e : GoError) (rec : Option Record)
  | withCat (e : GoError) (rec : Option Record) (cat : ErrorCategory)
deriving DecidableEq, Repr

/-- State reached after one collector call (the returned error is dropped;
only the state matters for the storage-cap invariant). -/
def Collector.applyOp (c : Collector) (op : AddOp) : Collector :=
  match op with
  | .plain e rec => (c.Add (some e) rec).1
  | .withCat e rec cat => (c.AddWithCategory (some e) rec cat).1

/-- `Collector.HasErrors`. -/
def Collector.HasErrors (c : Collector) : Bool :=
  decide (0 < c.errors.length)

/-- `Collector.ThresholdExceeded`: false when no threshold is configured,
otherwise strict comparison of the current rate against the threshold. -/
def Collector.ThresholdExceeded (c : Collector) : Bool :=
  if c.errorThreshold = 0 then false
  else decide (c.errorThreshold < c.calculateErrorRate)

/-! ## Semaphore (worker package) -/

/-- `worker.Semaphore`: a buffered channel of capacity `limit` holding one
token per acquired slot; `held` is the channel length `len(s.slots)`. -/
structure Semaphore where
  limit : Nat
  held : Nat
deriving DecidableEq, Repr

/-- `worker.NewSemaphore`: a non-positive limit defaults to 1. -/
def NewSemaphore (limit : Int) : Semaphore :=
  { limit := if limit ≤ 0 then 1 else limit.toNat, held := 0 }

/-- `Semaphore.Release`: non-blocking receive from the slots channel; when
the channel is empty the `default` branch panics ("release without
acquire"), embedded as `none`. -/
def Semaphore.Release (s : Semaphore) : Option Semaphore :=
  if s.held = 0 then none
  else some { s with held := s.held - 1 }

/-- `Semaphore.Available`: `cap(slots) - len(slots)`. -/
def Semaphore.Available (s : Semaphore) : Nat :=
  s.limit - s.held

/-- `Semaphore.Limit`. -/
def Semaphore.Limit (s : Semaphore) : Nat :=
  s.limit

/-- `Semaphore.Acquire` (blocking send, succeeds when a slot is free). -/
def Semaphore.Acquire (s : Semaphore) : Option Semaphore :=
  if s.held < s.limit then some { s with held := s.held + 1 } else none

/-! ## Worker pool (internal/worker/pool.go) -/

/-- The pool's buffered error channel: a send with `select`/`default`
succeeds exactly when the buffer is below capacity (the consumer side is
modelled as not currently receiving, which is the saturated case the spec
describes). -/
structure ErrorChannel where
  capacity : Nat
  buffered : List GoError
deriving DecidableEq, Repr

/-- Non-blocking channel send: append when below capacity, drop otherwise. -/
def ErrorChannel.trySend (ch : ErrorChannel) (e : GoError) : ErrorChannel :=
  if ch.buffered.length < ch.capacity then
    { ch with buffered := ch.buffered ++ [e] }
  else
    ch

/-- `Pool.processRecord`: the processing capability returned either an error
(`Except.error`) or a result. On an error, non-blockingly forward it to the
error channel and build a Failed result carrying it; otherwise keep the
result, defaulting its duration to the measured one when unset. `duration`
is the measured wall time of the call, in nanoseconds. -/
def processRecord (record : Record) (procOutcome : Except GoError Result)
    (duration : Nat) (errCh : ErrorChannel) : Result × ErrorChannel :=
  match procOutcome with
  | .error e =>
    (NewFailedResult (some record) e duration, errCh.trySend e)
  | .ok result =>
    ({ result with duration := if result.duration = 0 then duration else result.duration },
      errCh)

/-! ## CSV reader (internal/reader) -/

/-- Header validation failures of `reader.validateHeaders`, in source order:
no headers at all (`ErrInvalidCSV`), an empty header cell, a duplicate
(case-insensitive) name, a name with characters outside
letters/digits/space/underscore/hyphen. -/
inductive HeaderErr
  | invalidCSV
  | emptyHeader (column : Nat)
  | duplicate (name : String)
  | invalidChars (name : String)
deriving DecidableEq, Repr

/-- `reader.isValidHeaderName`: every rune is a letter, digit, underscore,
hyphen or space (Go's `unicode.IsLetter`/`IsDigit` embedded as the character
class predicates of `Char`). -/
def isValidHeaderName (name : String) : Bool :=
  name.toList.all fun r =>
    r.isAlpha || r.isDigit || r = '_' || r = '-' || r = ' '

/-- Go `strings.TrimSpace`: strip leading and trailing whitespace (written
over the character list so it evaluates structurally). -/
def trimSpace (s : String) : String :=
  String.mk (((s.toList.dropWhile Char.isWhitespace).reverse.dropWhile
    Char.isWhitespace).reverse)

/-- Go `strings.ToLower` (ASCII case mapping, like `Char.toLower`). -/
def lowerCase (s : String) : String :=
  String.mk (s.toList.map Char.toLower)

/-- Loop body of `reader.validateHeaders`: `seen` holds the normalized
(trimmed, lower-cased) names already checked, `i` the 0-based column. -/
def validateHeadersAux (seen : List String) (i : Nat) :
    List String → Option HeaderErr
  | [] => none
  | header :: rest =>
    if trimSpace header = "" then some (.emptyHeader (i + 1))
    else
      let normalized := lowerCase (trimSpace header)
      if normalized ∈ seen then some (.duplicate header)
      else if ¬ isValidHeaderName header then some (.invalidChars header)
      else validateHeadersAux (normalized :: seen) (i + 1) rest

/-- `reader.validateHeaders`. -/
def validateHeaders (headers : List String) : Option HeaderErr :=
  if headers.length = 0 then some .invalidCSV
  else validateHeadersAux [] 0 headers

/-- Errors `readFile` returns for one source, mirroring the source: the
sentinel file errors, a header validation failure wrapped in a contextual
`ProcessingError` (operation, source, line), and the contextual error for a
row the tokenizer rejects (`"read_record"`, source, line). -/
inductive ReadErr
  | fileNotFound
  | emptyFile
  | headerInvalid (file : String) (line : Nat) (cause : HeaderErr)
  | readRecord (file : String) (line : Nat)
deriving DecidableEq, Repr

/-- Record-reading loop of `CSVReader.readFile`. The external CSV tokenizer
(Go `encoding/csv` with its default `FieldsPerRecord`) fixes `expected` from
the first row read (the header when present, the first record otherwise) and
rejects any later row with a different field count; such a rejection aborts
the loop with the contextual `"read_record"` error at that line and emits
nothing further. `lineNumber` counts rows already consumed. -/
def readRows (file : String) (headers : List String) (expected : Nat)
    (lineNumber : Nat) : List (List String) → List Record × Option ReadErr
  | [] => ([], none)
  | row :: rest =>
    if row.length ≠ expected then
      ([], some (.readRecord file (lineNumber + 1)))
    else
      let r : Record :=
        { lineNumber := lineNumber + 1, fileName := file, data := row,
          headers := headers }
      let out := readRows file headers expected (lineNumber + 1) rest
      (r :: out.1, out.2)

/-- `CSVReader.readFile` over one tokenized source: the list of rows the
tokenizer delivers (blank lines already skipped by the tokenizer, so every
delivered row has at least one field). Returns the records emitted onto the
record stream, the header this source established, and the error that
aborted reading, if any. With a header: an empty source is `ErrEmptyFile`,
the header row is validated, then rows are read against the header length.
Without a header: rows are read against the first row's length, with nil
headers. Byte-level emptiness (`stat.Size() == 0`) and I/O failures on open
are outside the tokenized embedding. -/
def readFile (hasHeader : Bool) (file : String) (rows : List (List String)) :
    List Record × List String × Option ReadErr :=
  if hasHeader then
    match rows with
    | [] => ([], [], some .emptyFile)
    | header :: dataRows =>
      match validateHeaders header with
      | some e => ([], [], some (.headerInvalid file 1 e))
      | none =>
        let out := readRows file header header.length 1 dataRows
        (out.1, header, out.2)
  else
    match rows with
    | [] => ([], [], none)
    | first :: _ =>
      let out := readRows file [] first.length 0 rows
      (out.1, [], out.2)

/-- `reader.headersMatch`: equal length and field-for-field equality. -/
def headersMatch (h1 h2 : List String) : Bool :=
  decide (h1.length = h2.length) &&
    (List.zip h1 h2).all fun p => p.1 = p.2

/-- Errors `CSVReader.Read` places on its error stream: a failed source read
wrapped as `ProcessingError{"read", file, 0, cause}`, or the header-mismatch
error `ProcessingError{"validate_header", file, 0, ErrHeaderMismatch}`. -/
inductive ReaderStreamErr
  | readFailed (file : String) (cause : ReadErr)
  | headerMismatch (file : String)
deriving DecidableEq, Repr

/-- What `CSVReader.Read` leaves on its two output streams. -/
structure ReadOutput where
  records : List Record
  errors : List ReaderStreamErr
deriving DecidableEq, Repr

/-- One source's goroutine in `CSVReader.Read`, executed here in the order
the goroutines reach the shared header section: read the whole file (its
records are already on the stream, even when an error aborts it mid-way);
on error, route the wrapped error and skip header validation; otherwise,
when validating headers, the first source to finish establishes the
canonical header and each later one is compared field-for-field, a mismatch
emitting the distinct header-mismatch error for that source. -/
def readStep (hasHeader validateHeader : Bool)
    (acc : ReadOutput × Option (List String)) (src : String × List (List String)) :
    ReadOutput × Option (List String) :=
  let out := acc.1
  let common := acc.2
  let res := readFile hasHeader src.1 src.2
  match res.2.2 with
  | some e =>
    ({ records := out.records ++ res.1,
       errors := out.errors ++ [.readFailed src.1 e] }, common)
  | none =>
    if validateHeader ∧ hasHeader then
      match common with
      | none =>
        ({ out with records := out.records ++ res.1 }, some res.2.1)
      | some ch =>
        if headersMatch ch res.2.1 then
          ({ out with records := out.records ++ res.1 }, common)
        else
          ({ records := out.records ++ res.1,
             errors := out.errors ++ [.headerMismatch src.1] }, common)
    else
      ({ out with records := out.records ++ res.1 }, common)

/-- `CSVReader.Read` over the sources, in the order their reading tasks
complete (the per-source interleaving of emissions onto the shared record
stream does not affect any per-source property verified below). -/
def CSVReader.Read (hasHeader validateHeader : Bool)
    (sources : List (String × List (List String))) : ReadOutput :=
  (sources.foldl (readStep hasHeader validateHeader)
    ({ records := [], errors := [] }, none)).1

/-! ## Pipeline verdict (internal/pipeline/pipeline.go) -/

/-- The distinct fatal outcome of `Pipeline.Run`. -/
inductive RunErr
  | aborted
deriving DecidableEq, Repr

/-- The failure decision at the end of `Pipeline.Run`, after the three
consumers have drained and `finalize` ran: return the "processing aborted"
error exactly when the collector has errors, the config enables
abort-on-error, and the collector reports the threshold exceeded. -/
def runVerdict (c : Collector) (abortOnError : Bool) : Option RunErr :=
  if c.HasErrors && abortOnError then
    if c.ThresholdExceeded then some .aborted else none
  else
    none

/-! ## Helper lemmas -/

theorem getFieldByNameAux_not_mem (r : Record) (name : String) :
    ∀ (l : List String) (i : Nat), name ∉ l →
      getFieldByNameAux r name i l = "" := by
  intro l
  induction l with
  | nil => intro i _; rfl
  | cons h rest ih =>
    intro i hmem
    unfold getFieldByNameAux
    rw [if_neg (by simp at hmem; exact fun he => hmem.1 he.symm)]
    exact ih (i + 1) (by simp at hmem; exact hmem.2)

theorem summary_foldl_counts (results : List Result) :
    ∀ s : Summary,
      (results.foldl Summary.AddResult s).totalRecords
          = s.totalRecords + results.length ∧
      (results.foldl Summary.AddResult s).successCount
          + (results.foldl Summary.AddResult s).failedCount
          + (results.foldl Summary.AddResult s).skippedCount
        = s.successCount + s.failedCount + s.skippedCount + results.length := by
  induction results with
  | nil => intro s; simp
  | cons r rest ih =>
    intro s
    rw [List.foldl_cons]
    obtain ⟨h1, h2⟩ := ih (s.AddResult r)
    rcases r with ⟨rec, st, err, dur⟩
    cases st <;>
      simp only [Summary.AddResult] at h1 h2 ⊢ <;>
      simp only [List.length_cons] <;>
      exact ⟨by omega, by omega⟩

theorem tracker_foldl_counts (results : List Result) :
    ∀ pt : ProgressTracker,
      (results.foldl (fun acc r => acc.RecordProcessed (some r)) pt).processedCount
          = pt.processedCount + results.length ∧
      (results.foldl (fun acc r => acc.RecordProcessed (some r)) pt).successCount
          + (results.foldl (fun acc r => acc.RecordProcessed (some r)) pt).failedCount
          + (results.foldl (fun acc r => acc.RecordProcessed (some r)) pt).skippedCount
        = pt.successCount + pt.failedCount + pt.skippedCount + results.length := by
  induction results with
  | nil => intro pt; simp
  | cons r rest ih =>
    intro pt
    rw [List.foldl_cons]
    obtain ⟨h1, h2⟩ := ih (pt.RecordProcessed (some r))
    rcases r with ⟨rec, st, err, dur⟩
    cases st <;>
      simp only [ProgressTracker.RecordProcessed] at h1 h2 ⊢ <;>
      simp only [List.length_cons] <;>
      exact ⟨by omega, by omega⟩

/-! ## Claim theorems -/

theorem readRows_mem (file : String) (headers : List String) (expected : Nat) :
    ∀ (rows : List (List String)) (n : Nat) (r : Record),
      r ∈ (readRows file headers expected n rows).1 →
        r.headers = headers ∧ r.data.length = expected ∧ r.data ∈ rows := by
  intro rows
  induction rows with
  | nil => intro n r h; simp [readRows] at h
  | cons row rest ih =>
    intro n r h
    by_cases hrow : row.length = expected
    · simp only [readRows, hrow, ne_eq, not_true_eq_false, if_false,
        List.mem_cons] at h
      rcases h with h | h
      · subst h
        exact ⟨rfl, hrow, by simp⟩
      · obtain ⟨h1, h2, h3⟩ := ih (n + 1) r h
        exact ⟨h1, h2, by simp [h3]⟩
    · simp [readRows, hrow] at h

theorem readRows_all_ok (file : String) (headers : List String) (expected : Nat) :
    ∀ (rows : List (List String)) (n : Nat),
      (∀ row ∈ rows, row.length = expected) →
      (readRows file headers expected n rows).2 = none ∧
      (readRows file headers expected n rows).1.length = rows.length := by
  intro rows
  induction rows with
  | nil => intro n _; simp [readRows]
  | cons row rest ih =>
    intro n hall
    have hrow : row.length = expected := hall row (by simp)
    have hrest := ih (n + 1) (fun r hr => hall r (by simp [hr]))
    simp [readRows, hrow, hrest.1, hrest.2]

theorem readRows_violation (file : String) (headers : List String) (expected : Nat) :
    ∀ (rows : List (List String)) (n : Nat),
      (∃ row ∈ rows, row.length ≠ expected) →
      ∃ l, (readRows file headers expected n rows).2
        = some (.readRecord file l) := by
  intro rows
  induction rows with
  | nil => intro n h; simp at h
  | cons row rest ih =>
    intro n h
    by_cases hrow : row.length = expected
    · have hrest : ∃ r ∈ rest, r.length ≠ expected := by
        rcases h with ⟨r, hr, hne⟩
        rcases List.mem_cons.mp hr with rfl | hmem
        · exact absurd hrow hne
        · exact ⟨r, hmem, hne⟩
      obtain ⟨l, hl⟩ := ih (n + 1) hrest
      exact ⟨l, by simp [readRows, hrow, hl]⟩
    · exact ⟨n + 1, by simp [readRows, hrow]⟩

theorem headersMatch_iff : ∀ h1 h2 : List String,
    headersMatch h1 h2 = true ↔ h1 = h2 := by
  intro h1
  induction h1 with
  | nil => intro h2; cases h2 <;> simp [headersMatch]
  | cons a as ih =>
    intro h2
    cases h2 with
    | nil => simp [headersMatch]
    | cons b bs =>
      have hrec := ih bs
      simp only [headersMatch, List.length_cons, List.zip_cons_cons,
        List.all_cons, Bool.and_eq_true, decide_eq_true_eq] at hrec ⊢
      constructor
      · rintro ⟨hl, hab, hz⟩
        have hbs : as = bs := hrec.mp ⟨by omega, hz⟩
        rw [hab, hbs]
      · intro h
        injection h with hab hbs
        subst hab
        subst hbs
        exact ⟨rfl, rfl, (hrec.mpr rfl).2⟩

theorem applyOp_cap_step (c : Collector) (op : AddOp) (hmax : 0 < c.maxErrors)
    (hlen : (c.errors.length : Int) ≤ c.maxErrors) :
    ((c.applyOp op).errors.length : Int) ≤ c.maxErrors ∧
    (c.applyOp op).maxErrors = c.maxErrors := by
  have hstep : ∀ b : Bool, ¬ (0 < c.maxErrors ∧ c.maxErrors ≤ (c.errors.length : Int)) →
      (c.errors.length : Int) + 1 ≤ c.maxErrors := by
    intro _ hcap
    have : ¬ c.maxErrors ≤ (c.errors.length : Int) := fun hb => hcap ⟨hmax, hb⟩
    omega
  cases op with
  | plain e rec =>
    simp only [Collector.applyOp, Collector.Add]
    by_cases hcap : 0 < c.maxErrors ∧ c.maxErrors ≤ (c.errors.length : Int)
    · rw [if_pos hcap]
      exact ⟨hlen, rfl⟩
    · rw [if_neg hcap]
      have hb := hstep true hcap
      split
      · split
        · constructor
          · simpa using hb
          · rfl
        · constructor
          · simpa using hb
          · rfl
      · constructor
        · simpa using hb
        · rfl
  | withCat e rec cat =>
    simp only [Collector.applyOp, Collector.AddWithCategory]
    by_cases hcap : 0 < c.maxErrors ∧ c.maxErrors ≤ (c.errors.length : Int)
    · rw [if_pos hcap]
      exact ⟨hlen, rfl⟩
    · rw [if_neg hcap]
      have hb := hstep true hcap
      constructor
      · simpa using hb
      · rfl

theorem foldl_applyOp_cap (ops : List AddOp) :
    ∀ c : Collector, 0 < c.maxErrors → (c.errors.length : Int) ≤ c.maxErrors →
      ((ops.foldl Collector.applyOp c).errors.length : Int) ≤ c.maxErrors := by
  induction ops with
  | nil => intro c _ h; simpa using h
  | cons op rest ih =>
    intro c hmax hlen
    rw [List.foldl_cons]
    obtain ⟨h1, h2⟩ := applyOp_cap_step c op hmax hlen
    have h3 := ih (c.applyOp op) (by rw [h2]; exact hmax) (by rw [h2]; exact h1)
    rw [h2] at h3
    exact h3

/-- C1 counterexample: a collector configured with threshold 1/2 in (0,1],
abort-on-threshold enabled, one record processed and no errors stored
accepts an error through `AddWithCategory`; the rate on that accepted error
is 1, strictly above the threshold, yet the call returns no error and the
cancellation scope stays unsignaled — refuting the claim that the threshold
computation covers both add operations. -/
theorem C1_counterexample :
    ((Collector.mk [] 0 (1/2) 1 true false).AddWithCategory
        (some .processingFailed) none .processing).1.errors.length = 1 ∧
    ((Collector.mk [] 0 (1/2) 1 true false).AddWithCategory
        (some .processingFailed) none .processing).1.abortOnThreshold = true ∧
    (0 < ((Collector.mk [] 0 (1/2) 1 true false).AddWithCategory
        (some .processingFailed) none .processing).1.errorThreshold ∧
      ((Collector.mk [] 0 (1/2) 1 true false).AddWithCategory
        (some .processingFailed) none .processing).1.errorThreshold ≤ 1) ∧
    ((Collector.mk [] 0 (1/2) 1 true false).AddWithCategory
        (some .processingFailed) none .processing).1.errorThreshold
      < ((Collector.mk [] 0 (1/2) 1 true false).AddWithCategory
        (some .processingFailed) none .processing).1.calculateErrorRate ∧
    ((Collector.mk [] 0 (1/2) 1 true false).AddWithCategory
        (some .processingFailed) none .processing).2 = none ∧
    ((Collector.mk [] 0 (1/2) 1 true false).AddWithCategory
        (some .processingFailed) none .processing).1.canceled = false := by
  refine ⟨rfl, rfl, ⟨by norm_num [Collector.AddWithCategory],
    by norm_num [Collector.AddWithCategory]⟩, ?_, rfl, rfl⟩
  norm_num [Collector.AddWithCategory, Collector.calculateErrorRate]

/-- C1 (amended): only `Add` evaluates the threshold. For every error `Add`
accepts under abort-on-threshold with a positive threshold, the rate
`errorCount / processed` is computed on the state holding that accepted
error: when it strictly exceeds the threshold the call signals the
(level-triggered, hence idempotent) cancellation scope and returns the
distinct threshold error, and otherwise it returns no error and leaves the
scope as it was. `AddWithCategory` never evaluates the threshold: it never
returns the threshold error and never changes the scope. -/
theorem C1_threshold_policy (c : Collector) (e : GoError) (rec : Option Record)
    (habort : c.abortOnThreshold = true) (hpos : 0 < c.errorThreshold)
    (hcap : ¬ (0 < c.maxErrors ∧ c.maxErrors ≤ (c.errors.length : Int))) :
    ((c.Add (some e) rec).1.errors.length = c.errors.length + 1) ∧
    (c.errorThreshold < (c.Add (some e) rec).1.calculateErrorRate →
      (c.Add (some e) rec).2 = some .thresholdExceeded ∧
      (c.Add (some e) rec).1.canceled = true) ∧
    (¬ c.errorThreshold < (c.Add (some e) rec).1.calculateErrorRate →
      (c.Add (some e) rec).2 = none ∧
      (c.Add (some e) rec).1.canceled = c.canceled) ∧
    (∀ (c' : Collector) (e' : GoError) (rec' : Option Record)
        (cat : ErrorCategory),
      (c'.AddWithCategory (some e') rec' cat).2 ≠ some .thresholdExceeded ∧
      (c'.AddWithCategory (some e') rec' cat).1.canceled = c'.canceled) := by
  have hwc : ∀ (c' : Collector) (e' : GoError) (rec' : Option Record)
      (cat : ErrorCategory),
      (c'.AddWithCategory (some e') rec' cat).2 ≠ some .thresholdExceeded ∧
      (c'.AddWithCategory (some e') rec' cat).1.canceled = c'.canceled := by
    intro c' e' rec' cat
    simp only [Collector.AddWithCategory]
    by_cases hcap' : 0 < c'.maxErrors ∧ c'.maxErrors ≤ (c'.errors.length : Int)
    · rw [if_pos hcap']
      exact ⟨by simp, rfl⟩
    · rw [if_neg hcap']
      exact ⟨by simp, rfl⟩
  simp only [Collector.Add]
  rw [if_neg hcap]
  rw [if_pos (⟨habort, hpos⟩ : c.abortOnThreshold = true ∧ 0 < c.errorThreshold)]
  by_cases hrate : c.errorThreshold <
      (Collector.mk (c.errors ++ [ErrorEntry.mk e rec (categorizeError e)
        (determineSeverity e) (isRetryable e)]) c.maxErrors c.errorThreshold
        c.totalProcessed c.abortOnThreshold c.canceled).calculateErrorRate
  · rw [if_pos hrate]
    refine ⟨by simp, fun _ => ⟨rfl, rfl⟩, fun hn => absurd ?_ hn, hwc⟩
    simpa [Collector.calculateErrorRate] using hrate
  · rw [if_neg hrate]
    refine ⟨by simp, fun hy => absurd ?_ hrate, fun _ => ⟨rfl, rfl⟩, hwc⟩
    simpa [Collector.calculateErrorRate] using hy

/-- Witness for C1 (amended) at a collector with threshold 1/2, one record
processed and no stored errors: `Add` accepts the error, the rate 1 strictly
exceeds 1/2, the distinct threshold error is returned and the scope is
signaled. -/
theorem C1_witness :
    ((Collector.mk [] 0 (1/2) 1 true false).Add (some (.other "boom")) none).1.errors.length
        = 0 + 1 ∧
    ((Collector.mk [] 0 (1/2) 1 true false).Add (some (.other "boom")) none).2
        = some .thresholdExceeded ∧
    ((Collector.mk [] 0 (1/2) 1 true false).Add (some (.other "boom")) none).1.canceled
        = true := by
  have h := C1_threshold_policy (Collector.mk [] 0 (1/2) 1 true false)
    (.other "boom") none rfl (by norm_num) (by decide)
  have hx := h.2.1 (by
    norm_num [Collector.Add, Collector.calculateErrorRate, categorizeError,
      determineSeverity, isRetryable, IsValidationError, IsIOError,
      IsTimeoutError, IsProcessingError])
  exact ⟨h.1, hx.1, hx.2⟩

/-- C3: with a configured maximum error count `k > 0`, no sequence of add
calls ever leaves more than `k` entries in the collector, and at `k` stored
entries both `Add` and `AddWithCategory` reject the offered error with the
distinct limit error and leave the state unchanged (so in particular the
(k+1)-th error-add attempt is rejected). -/
theorem C3_max_errors_cap (k : Int) (hk : 0 < k) (threshold : ℚ) (abort : Bool)
    (ops : List AddOp) :
    ((ops.foldl Collector.applyOp
        (NewCollector (CollectorConfig.mk k threshold abort))).errors.length : Int)
      ≤ k ∧
    (∀ (c : Collector) (e : GoError) (rec : Option Record) (cat : ErrorCategory),
      c.maxErrors = k → k ≤ (c.errors.length : Int) →
        c.Add (some e) rec = (c, some (.limitReached k)) ∧
        c.AddWithCategory (some e) rec cat = (c, some (.limitReached k))) := by
  constructor
  · exact foldl_applyOp_cap ops _ hk (by simp [NewCollector]; omega)
  · intro c e rec cat hmk hlen
    subst hmk
    constructor
    · simp only [Collector.Add]
      rw [if_pos ⟨hk, hlen⟩]
    · simp only [Collector.AddWithCategory]
      rw [if_pos ⟨hk, hlen⟩]

/-- Witness for C3: cap 2, three error-add attempts leave at most 2 entries,
and a collector already holding 2 entries rejects both kinds of add with the
limit error. -/
theorem C3_witness :
    ((([AddOp.plain .processingFailed none, AddOp.plain .emptyFile none,
        AddOp.withCat (.other "x") none .io] : List AddOp).foldl
        Collector.applyOp
        (NewCollector (CollectorConfig.mk 2 0 false))).errors.length : Int) ≤ 2 ∧
    ((Collector.mk [ErrorEntry.mk (.other "a") none .unknown .medium false,
        ErrorEntry.mk (.other "b") none .unknown .medium false] 2 0 0 false
        false).Add (some .emptyFile) none
      = (Collector.mk [ErrorEntry.mk (.other "a") none .unknown .medium false,
        ErrorEntry.mk (.other "b") none .unknown .medium false] 2 0 0 false
        false, some (.limitReached 2)) ∧
      (Collector.mk [ErrorEntry.mk (.other "a") none .unknown .medium false,
        ErrorEntry.mk (.other "b") none .unknown .medium false] 2 0 0 false
        false).AddWithCategory (some .emptyFile) none .io
      = (Collector.mk [ErrorEntry.mk (.other "a") none .unknown .medium false,
        ErrorEntry.mk (.other "b") none .unknown .medium false] 2 0 0 false
        false, some (.limitReached 2))) := by
  have h := C3_max_errors_cap 2 (by decide) 0 false
    [AddOp.plain .processingFailed none, AddOp.plain .emptyFile none,
      AddOp.withCat (.other "x") none .io]
  exact ⟨h.1, h.2 _ .emptyFile none .io rfl (by decide)⟩

/-- C2: each consumed result moves the total/processed counter up by exactly
one and exactly one of the three outcome counters up by exactly one, in both
the Summary (`AddResult`) and the Progress Tracker (`RecordProcessed`); for
every finite sequence of results the invariant
`success + failed + skipped = total` (resp. `= processed`) therefore holds
once all updates are in, with no result dropped or double-counted. -/
theorem C2_counter_conservation :
    (∀ (s : Summary) (r : Result),
      (s.AddResult r).totalRecords = s.totalRecords + 1 ∧
      (s.AddResult r).successCount
          = s.successCount + (if r.status = .success then 1 else 0) ∧
      (s.AddResult r).failedCount
          = s.failedCount + (if r.status = .failed then 1 else 0) ∧
      (s.AddResult r).skippedCount
          = s.skippedCount + (if r.status = .skipped then 1 else 0)) ∧
    (∀ results : List Result,
      (results.foldl Summary.AddResult NewSummary).successCount
          + (results.foldl Summary.AddResult NewSummary).failedCount
          + (results.foldl Summary.AddResult NewSummary).skippedCount
        = (results.foldl Summary.AddResult NewSummary).totalRecords ∧
      (results.foldl Summary.AddResult NewSummary).totalRecords
        = results.length) ∧
    (∀ (pt : ProgressTracker) (r : Result),
      (pt.RecordProcessed (some r)).processedCount = pt.processedCount + 1 ∧
      (pt.RecordProcessed (some r)).successCount
          = pt.successCount + (if r.status = .success then 1 else 0) ∧
      (pt.RecordProcessed (some r)).failedCount
          = pt.failedCount + (if r.status = .failed then 1 else 0) ∧
      (pt.RecordProcessed (some r)).skippedCount
          = pt.skippedCount + (if r.status = .skipped then 1 else 0)) ∧
    (∀ (t0 : Nat) (results : List Result),
      (results.foldl (fun acc r => acc.RecordProcessed (some r))
            (NewProgressTracker t0)).successCount
          + (results.foldl (fun acc r => acc.RecordProcessed (some r))
            (NewProgressTracker t0)).failedCount
          + (results.foldl (fun acc r => acc.RecordProcessed (some r))
            (NewProgressTracker t0)).skippedCount
        = (results.foldl (fun acc r => acc.RecordProcessed (some r))
            (NewProgressTracker t0)).processedCount) := by
  refine ⟨fun s r => ?_, fun results => ?_, fun pt r => ?_, fun t0 results => ?_⟩
  · rcases r with ⟨rec, st, err, dur⟩
    cases st <;> simp [Summary.AddResult]
  · obtain ⟨h1, h2⟩ := summary_foldl_counts results NewSummary
    simp only [NewSummary] at h1 h2 ⊢
    exact ⟨by omega, by omega⟩
  · rcases r with ⟨rec, st, err, dur⟩
    cases st <;> simp [ProgressTracker.RecordProcessed]
  · obtain ⟨h1, h2⟩ := tracker_foldl_counts results (NewProgressTracker t0)
    simp only [NewProgressTracker] at h1 h2 ⊢
    omega

/-- Witness for C2 at a concrete three-result sequence: the Summary and the
Progress Tracker both conserve every result. -/
theorem C2_witness :
    (([Result.mk none .success none 0, Result.mk none .failed none 0,
        Result.mk none .skipped none 0] : List Result).foldl
        Summary.AddResult NewSummary).successCount
      + (([Result.mk none .success none 0, Result.mk none .failed none 0,
        Result.mk none .skipped none 0] : List Result).foldl
        Summary.AddResult NewSummary).failedCount
      + (([Result.mk none .success none 0, Result.mk none .failed none 0,
        Result.mk none .skipped none 0] : List Result).foldl
        Summary.AddResult NewSummary).skippedCount
      = (([Result.mk none .success none 0, Result.mk none .failed none 0,
        Result.mk none .skipped none 0] : List Result).foldl
        Summary.AddResult NewSummary).totalRecords ∧
    (([Result.mk none .success none 0, Result.mk none .failed none 0,
        Result.mk none .skipped none 0] : List Result).foldl
        (fun acc r => acc.RecordProcessed (some r))
        (NewProgressTracker 3)).successCount
      + (([Result.mk none .success none 0, Result.mk none .failed none 0,
        Result.mk none .skipped none 0] : List Result).foldl
        (fun acc r => acc.RecordProcessed (some r))
        (NewProgressTracker 3)).failedCount
      + (([Result.mk none .success none 0, Result.mk none .failed none 0,
        Result.mk none .skipped none 0] : List Result).foldl
        (fun acc r => acc.RecordProcessed (some r))
        (NewProgressTracker 3)).skippedCount
      = (([Result.mk none .success none 0, Result.mk none .failed none 0,
        Result.mk none .skipped none 0] : List Result).foldl
        (fun acc r => acc.RecordProcessed (some r))
        (NewProgressTracker 3)).processedCount :=
  ⟨(C2_counter_conservation.2.1 [Result.mk none .success none 0,
      Result.mk none .failed none 0, Result.mk none .skipped none 0]).1,
    C2_counter_conservation.2.2.2 3 [Result.mk none .success none 0,
      Result.mk none .failed none 0, Result.mk none .skipped none 0]⟩

/-- C4: after finalization `Run` returns the distinct "aborted" error
exactly when the collector has errors, abort-on-error is configured, and the
collector reports the threshold exceeded; equivalently, in terms of the
collector state, exactly when the error list is non-empty, abort is on, a
threshold is configured and the rate strictly exceeds it — in every other
state the run returns success. -/
theorem C4_abort_verdict (c : Collector) (abortOnError : Bool) :
    (runVerdict c abortOnError = some .aborted ↔
      (c.HasErrors = true ∧ abortOnError = true ∧ c.ThresholdExceeded = true)) ∧
    (runVerdict c abortOnError = some .aborted ↔
      (c.errors ≠ [] ∧ abortOnError = true ∧ c.errorThreshold ≠ 0 ∧
        c.errorThreshold < c.calculateErrorRate)) := by
  have main : runVerdict c abortOnError = some .aborted ↔
      (c.HasErrors = true ∧ abortOnError = true ∧ c.ThresholdExceeded = true) := by
    unfold runVerdict
    cases hH : c.HasErrors <;> cases hA : abortOnError <;>
      cases hT : c.ThresholdExceeded <;> simp [hH, hA, hT]
  have hHE : (c.HasErrors = true) ↔ c.errors ≠ [] := by
    simp only [Collector.HasErrors, decide_eq_true_eq]
    exact List.length_pos
  have hTE : (c.ThresholdExceeded = true) ↔
      (c.errorThreshold ≠ 0 ∧ c.errorThreshold < c.calculateErrorRate) := by
    unfold Collector.ThresholdExceeded
    by_cases h0 : c.errorThreshold = 0
    · simp [h0]
    · simp [h0]
  exact ⟨main, main.trans (by rw [hHE, hTE])⟩

/-- Witness for C4 at a concrete collector state (one stored error, one
record processed, threshold 1/2, abort enabled): the run verdict is the
distinct aborted error. -/
theorem C4_witness :
    runVerdict (Collector.mk [ErrorEntry.mk .processingFailed none .processing
      .medium false] 0 (1/2) 1 true true) true = some .aborted :=
  (C4_abort_verdict (Collector.mk [ErrorEntry.mk .processingFailed none
      .processing .medium false] 0 (1/2) 1 true true) true).2.mpr
    ⟨by simp, rfl, by norm_num, by norm_num [Collector.calculateErrorRate]⟩

/-- C10: public field access is total. For every record and integer index,
`GetField` returns the empty string when the index is negative or at least
the field count, and the index-th field value otherwise; `GetFieldByName`
returns the empty string when the column name occurs in no header. -/
theorem C10_field_access_total (r : Record) (i : Int) (name : String) :
    ((i < 0 ∨ (r.data.length : Int) ≤ i) → r.GetField i = "") ∧
    (∀ h : 0 ≤ i ∧ i < (r.data.length : Int),
      r.GetField i = r.data.get ⟨i.toNat, by omega⟩) ∧
    (name ∉ r.headers → r.GetFieldByName name = "") := by
  refine ⟨fun h => ?_, fun h => ?_, fun h => ?_⟩
  · simp only [Record.GetField, if_pos h]
  · have hb : ¬ (i < 0 ∨ (r.data.length : Int) ≤ i) := by omega
    have hlt : i.toNat < r.data.length := by omega
    simp only [Record.GetField, if_neg hb]
    rw [List.getD_eq_getElem?_getD, List.getElem?_eq_getElem hlt]
    simp [List.get_eq_getElem]
  · exact getFieldByNameAux_not_mem r name r.headers 0 h

/-- Witness for C10 at a concrete record: index 5 is out of range, index 1
is the second field, and an unknown column name yields the empty string. -/
theorem C10_witness :
    (Record.mk 1 "f.csv" ["a", "b"] ["x", "y"]).GetField 5 = "" ∧
    (Record.mk 1 "f.csv" ["a", "b"] ["x", "y"]).GetField 1 =
      (Record.mk 1 "f.csv" ["a", "b"] ["x", "y"]).data.get ⟨1, by decide⟩ ∧
    (Record.mk 1 "f.csv" ["a", "b"] ["x", "y"]).GetFieldByName "zzz" = "" := by
  have h := C10_field_access_total (Record.mk 1 "f.csv" ["a", "b"] ["x", "y"]) 1 "zzz"
  have h5 := C10_field_access_total (Record.mk 1 "f.csv" ["a", "b"] ["x", "y"]) 5 "zzz"
  exact ⟨h5.1 (by decide), h.2.1 (by decide), h.2.2 (by decide)⟩

/-- C9: `Semaphore.Release` fails fatally (the `none` outcome embedding the
panic) exactly when every slot is free (`Available = Limit`); with at least
one slot held it succeeds and returns the slot, making `Available` one
larger. The hypothesis is the channel invariant `len(slots) ≤ cap(slots)`,
which every reachable semaphore state satisfies. -/
theorem C9_release_guard (s : Semaphore) (hinv : s.held ≤ s.limit) :
    (s.Release = none ↔ s.Available = s.Limit) ∧
    (0 < s.held → ∃ s', s.Release = some s' ∧
      s'.Available = s.Available + 1 ∧ s'.held = s.held - 1) := by
  constructor
  · unfold Semaphore.Release Semaphore.Available Semaphore.Limit
    constructor
    · intro h
      by_cases h0 : s.held = 0
      · omega
      · rw [if_neg h0] at h
        exact absurd h (by simp)
    · intro h
      have h0 : s.held = 0 := by omega
      rw [if_pos h0]
  · intro h
    refine ⟨⟨s.limit, s.held - 1⟩, ?_, ?_, rfl⟩
    · unfold Semaphore.Release
      rw [if_neg (by omega)]
    · show s.limit - (s.held - 1) = s.limit - s.held + 1
      omega

/-- Witness for C9: a semaphore of limit 3 with one held slot releases
successfully and its available count grows from 2 to 3. -/
theorem C9_witness :
    ∃ s', (Semaphore.mk 3 1).Release = some s' ∧
      s'.Available = (Semaphore.mk 3 1).Available + 1 ∧ s'.held = 1 - 1 :=
  (C9_release_guard (Semaphore.mk 3 1) (by decide)).2 (by decide)

/-- C8: the tracker's derived metrics are total at their edge cases: zero
elapsed time gives throughput 0, `processed ≥ total` gives ETA 0, and an
unknown (zero) expected total gives percent-complete 0 and ETA 0. -/
theorem C8_metric_edge_cases (pt : ProgressTracker) (elapsedSeconds : ℚ)
    (elapsedNs : Nat) :
    (elapsedSeconds = 0 → pt.Throughput elapsedSeconds = 0) ∧
    (pt.totalRecords ≤ pt.processedCount → pt.ETA elapsedNs = 0) ∧
    (pt.totalRecords = 0 → pt.PercentComplete = 0 ∧ pt.ETA elapsedNs = 0) := by
  refine ⟨fun h => ?_, fun h => ?_, fun h => ⟨?_, ?_⟩⟩
  · simp [ProgressTracker.Throughput, h]
  · unfold ProgressTracker.ETA
    by_cases h0 : pt.totalRecords = 0 ∨ pt.processedCount = 0
    · rw [if_pos h0]
    · rw [if_neg h0, if_pos h]
  · simp [ProgressTracker.PercentComplete, h]
  · simp [ProgressTracker.ETA, h]

/-- Witness for C8 at a concrete counter state: total 0 still gives defined
zero metrics, and a tracker with `processed ≥ total` has ETA 0. -/
theorem C8_witness :
    ((ProgressTracker.mk 0 5 3 2 0).Throughput 0 = 0) ∧
    ((ProgressTracker.mk 4 5 3 2 0).ETA 1000 = 0) ∧
    ((ProgressTracker.mk 0 5 3 2 0).PercentComplete = 0 ∧
      (ProgressTracker.mk 0 5 3 2 0).ETA 1000 = 0) :=
  ⟨(C8_metric_edge_cases (ProgressTracker.mk 0 5 3 2 0) 0 1000).1 rfl,
   (C8_metric_edge_cases (ProgressTracker.mk 4 5 3 2 0) 0 1000).2.1 (by decide),
   (C8_metric_edge_cases (ProgressTracker.mk 0 5 3 2 0) 0 1000).2.2 rfl⟩

/-- C7: when the processing capability errors, the worker produces a Failed
result carrying that same error and the original record, and forwards the
error to the pool's error stream non-blockingly: appended when the buffer is
below capacity, dropped (stream state unchanged) when saturated — the Failed
result is produced either way. -/
theorem C7_failed_result_error_forwarding (record : Record) (e : GoError)
    (duration : Nat) (errCh : ErrorChannel) :
    ((processRecord record (.error e) duration errCh).1.status = .failed ∧
     (processRecord record (.error e) duration errCh).1.error = some e ∧
     (processRecord record (.error e) duration errCh).1.record = some record) ∧
    (errCh.buffered.length < errCh.capacity →
      (processRecord record (.error e) duration errCh).2.buffered
        = errCh.buffered ++ [e]) ∧
    (errCh.capacity ≤ errCh.buffered.length →
      (processRecord record (.error e) duration errCh).2 = errCh) := by
  refine ⟨⟨rfl, rfl, rfl⟩, fun h => ?_, fun h => ?_⟩
  · simp [processRecord, ErrorChannel.trySend, if_pos h]
  · simp [processRecord, ErrorChannel.trySend, if_neg (by omega : ¬ errCh.buffered.length < errCh.capacity)]

/-- Witness for C7: with one free buffer slot the error is appended; with a
saturated buffer it is dropped; the Failed result appears in both cases. -/
theorem C7_witness :
    ((processRecord (Record.mk 1 "f.csv" ["a"] []) (.error .processingFailed) 5
        (ErrorChannel.mk 1 [])).1.status = .failed ∧
     (processRecord (Record.mk 1 "f.csv" ["a"] []) (.error .processingFailed) 5
        (ErrorChannel.mk 1 [])).1.error = some .processingFailed ∧
     (processRecord (Record.mk 1 "f.csv" ["a"] []) (.error .processingFailed) 5
        (ErrorChannel.mk 1 [])).1.record = some (Record.mk 1 "f.csv" ["a"] [])) ∧
    (processRecord (Record.mk 1 "f.csv" ["a"] []) (.error .processingFailed) 5
        (ErrorChannel.mk 1 [])).2.buffered = [] ++ [.processingFailed] ∧
    (processRecord (Record.mk 1 "f.csv" ["a"] []) (.error .processingFailed) 5
        (ErrorChannel.mk 1 [.emptyFile])).2 = ErrorChannel.mk 1 [.emptyFile] := by
  refine ⟨(C7_failed_result_error_forwarding (Record.mk 1 "f.csv" ["a"] [])
      .processingFailed 5 (ErrorChannel.mk 1 [])).1, ?_, ?_⟩
  · exact (C7_failed_result_error_forwarding (Record.mk 1 "f.csv" ["a"] [])
      .processingFailed 5 (ErrorChannel.mk 1 [])).2.1 (by decide)
  · exact (C7_failed_result_error_forwarding (Record.mk 1 "f.csv" ["a"] [])
      .processingFailed 5 (ErrorChannel.mk 1 [.emptyFile])).2.2 (by decide)

/-- C5: every record the reader emits onto the record stream satisfies the
producer-side invariant — with a header its field count equals the header
length, without one its field list is non-empty — and a row violating the
field count is never emitted: it aborts reading of that source with the
contextual `"read_record"` error (operation, source, line) routed to the
error stream. The hypothesis is the tokenizer guarantee that delivered rows
are non-empty (Go `encoding/csv` skips blank lines and never yields a
zero-field row). -/
theorem C5_producer_side_validation (hasHeader : Bool) (file : String)
    (rows : List (List String)) (hrows : ∀ row ∈ rows, row ≠ []) :
    (∀ r ∈ (readFile hasHeader file rows).1,
      (r.headers ≠ [] → r.data.length = r.headers.length) ∧ r.data ≠ []) ∧
    (∀ header dataRows, hasHeader = true → rows = header :: dataRows →
      validateHeaders header = none →
      (∃ row ∈ dataRows, row.length ≠ header.length) →
      (∃ l, (readFile hasHeader file rows).2.2
        = some (.readRecord file l)) ∧
      (∀ r ∈ (readFile hasHeader file rows).1,
        r.data.length = header.length) ∧
      (∀ v : Bool, ∃ l, (CSVReader.Read true v [(file, rows)]).errors
        = [.readFailed file (.readRecord file l)])) := by
  constructor
  · intro r hr
    cases hasHeader with
    | true =>
      cases rows with
      | nil => simp [readFile] at hr
      | cons header dataRows =>
        cases hval : validateHeaders header with
        | some e => simp [readFile, hval] at hr
        | none =>
          simp only [readFile, hval, if_true] at hr
          obtain ⟨h1, h2, h3⟩ := readRows_mem file header header.length
            dataRows 1 r hr
          have hhead : header ≠ [] := hrows header (by simp)
          have hdata : r.data ≠ [] := by
            intro hd
            apply hhead
            have : r.data.length = 0 := by rw [hd]; rfl
            have : header.length = 0 := by omega
            exact List.length_eq_zero.mp this
          exact ⟨fun _ => by rw [h1, h2], hdata⟩
    | false =>
      cases rows with
      | nil => simp [readFile] at hr
      | cons first rest =>
        simp only [readFile] at hr
        obtain ⟨h1, h2, h3⟩ := readRows_mem file [] first.length
          (first :: rest) 0 r hr
        exact ⟨fun hne => absurd h1 hne, hrows r.data h3⟩
  · intro header dataRows hH hrw hval hviol
    subst hH
    subst hrw
    obtain ⟨l, hl⟩ := readRows_violation file header header.length dataRows 1 hviol
    have hsome : (readFile true file (header :: dataRows)).2.2
        = some (.readRecord file l) := by
      simp [readFile, hval, hl]
    refine ⟨⟨l, hsome⟩, ?_, ?_⟩
    · intro r hr
      simp only [readFile, hval, if_true] at hr
      exact (readRows_mem file header header.length dataRows 1 r hr).2.1
    · intro v
      exact ⟨l, by simp [CSVReader.Read, readStep, hsome]⟩

/-- Witness for C5 at a concrete source `["a","b"]; ["1","2"]; ["3"]`: all
emitted records match the header length, and the short third row produces
the contextual abort error while never being emitted. -/
theorem C5_witness :
    (∀ r ∈ (readFile true "t.csv" [["a", "b"], ["1", "2"], ["3"]]).1,
      (r.headers ≠ [] → r.data.length = r.headers.length) ∧ r.data ≠ []) ∧
    (∃ l, (readFile true "t.csv" [["a", "b"], ["1", "2"], ["3"]]).2.2
      = some (.readRecord "t.csv" l)) ∧
    (∀ r ∈ (readFile true "t.csv" [["a", "b"], ["1", "2"], ["3"]]).1,
      r.data.length = (["a", "b"] : List String).length) ∧
    (∃ l, (CSVReader.Read true false
      [("t.csv", [["a", "b"], ["1", "2"], ["3"]])]).errors
      = [.readFailed "t.csv" (.readRecord "t.csv" l)]) := by
  have h := C5_producer_side_validation true "t.csv"
    [["a", "b"], ["1", "2"], ["3"]] (by decide)
  have h2 := h.2 ["a", "b"] [["1", "2"], ["3"]] rfl rfl (by decide)
    ⟨["3"], by decide, by decide⟩
  exact ⟨h.1, h2.1, h2.2.1, h2.2.2 false⟩

/-- C6 counterexample: two sources whose headers differ in the second field,
read with header validation. The model yields exactly one header-mismatch
error attributed to the second source, as claimed — but the second source's
data record still reaches the record stream, because the source compares
headers only after a source has been fully read: the claim that "the
mismatching source's reading halts" (so that its records stay out of the
stream) is false. -/
theorem C6_counterexample :
    (CSVReader.Read true true
      [("a.csv", [["x", "y"], ["1", "2"]]),
        ("b.csv", [["x", "z"], ["3", "4"]])]).errors
      = [.headerMismatch "b.csv"] ∧
    (∃ r ∈ (CSVReader.Read true true
      [("a.csv", [["x", "y"], ["1", "2"]]),
        ("b.csv", [["x", "z"], ["3", "4"]])]).records,
      r.fileName = "b.csv") := by
  decide

/-- C6 (amended): with header validation on two cleanly-reading sources, in
completion order: identical headers produce no error at all; headers
differing in any field name or position produce exactly one header-mismatch
error attributed to the second source, with the first source's records
unaffected — but the mismatch is detected only after the second source has
been fully read, so all of its records are emitted as well (its reading is
never cut short by the mismatch). -/
theorem C6_header_validation (f1 f2 : String) (h1 h2 : List String)
    (rows1 rows2 : List (List String))
    (hv1 : validateHeaders h1 = none) (hv2 : validateHeaders h2 = none)
    (hr1 : ∀ row ∈ rows1, row.length = h1.length)
    (hr2 : ∀ row ∈ rows2, row.length = h2.length) :
    (h1 = h2 →
      (CSVReader.Read true true [(f1, h1 :: rows1), (f2, h2 :: rows2)]).errors
        = []) ∧
    (h1 ≠ h2 →
      (CSVReader.Read true true [(f1, h1 :: rows1), (f2, h2 :: rows2)]).errors
        = [.headerMismatch f2] ∧
      (CSVReader.Read true true [(f1, h1 :: rows1), (f2, h2 :: rows2)]).records
        = (readFile true f1 (h1 :: rows1)).1
            ++ (readFile true f2 (h2 :: rows2)).1 ∧
      (readFile true f2 (h2 :: rows2)).1.length = rows2.length) := by
  have herr1 := readRows_all_ok f1 h1 h1.length rows1 1 hr1
  have herr2 := readRows_all_ok f2 h2 h2.length rows2 1 hr2
  have e1 : readFile true f1 (h1 :: rows1)
      = ((readRows f1 h1 h1.length 1 rows1).1, h1, none) := by
    simp [readFile, hv1, herr1.1]
  have e2 : readFile true f2 (h2 :: rows2)
      = ((readRows f2 h2 h2.length 1 rows2).1, h2, none) := by
    simp [readFile, hv2, herr2.1]
  constructor
  · intro heq
    subst heq
    simp [CSVReader.Read, readStep, e1, e2, (headersMatch_iff h1 h1).mpr rfl]
  · intro hne
    have hm : headersMatch h1 h2 = false := by
      rw [Bool.eq_false_iff]
      intro hmt
      exact hne ((headersMatch_iff h1 h2).mp hmt)
    refine ⟨?_, ?_, ?_⟩
    · simp [CSVReader.Read, readStep, e1, e2, hm]
    · simp [CSVReader.Read, readStep, e1, e2, hm]
    · rw [e2]
      exact herr2.2

/-- Witness for C6 (amended): identical headers give an empty error stream;
the differing pair `["x","y"]` / `["x","z"]` gives exactly the one mismatch
error for the second source while both sources' records are all emitted. -/
theorem C6_witness :
    (CSVReader.Read true true
      [("a.csv", [["x", "y"], ["1", "2"]]),
        ("b.csv", [["x", "y"], ["3", "4"]])]).errors = [] ∧
    ((CSVReader.Read true true
      [("a.csv", [["x", "y"], ["1", "2"]]),
        ("b.csv", [["x", "z"], ["3", "4"]])]).errors
      = [.headerMismatch "b.csv"] ∧
    (CSVReader.Read true true
      [("a.csv", [["x", "y"], ["1", "2"]]),
        ("b.csv", [["x", "z"], ["3", "4"]])]).records
      = (readFile true "a.csv" [["x", "y"], ["1", "2"]]).1
          ++ (readFile true "b.csv" [["x", "z"], ["3", "4"]]).1 ∧
    (readFile true "b.csv" [["x", "z"], ["3", "4"]]).1.length
      = ([["3", "4"]] : List (List String)).length) := by
  constructor
  · exact (C6_header_validation "a.csv" "b.csv" ["x", "y"] ["x", "y"]
      [["1", "2"]] [["3", "4"]] (by decide) (by decide) (by decide)
      (by decide)).1 rfl
  · exact (C6_header_validation "a.csv" "b.csv" ["x", "y"] ["x", "z"]
      [["1", "2"]] [["3", "4"]] (by decide) (by decide) (by decide)
      (by decide)).2 (by decide)

end CsvProc
